import Mathlib

/-!
Verification development for the `entdomain` repository (Go).

The Go source is shallowly embedded: pure functions become Lean functions,
machine integers (Go `int`, `int64`) are modelled as `Int` with explicit
range side conditions where they matter, Go `float64` is modelled as `ℚ`
together with an explicit binary64 rounding function for the one place the
code depends on floating-point behaviour (JSON decoding of numbers), and
fallible Go functions return `Except`/`Option`.
-/

namespace Entdomain

/-! ## Binary64 model

Go's `encoding/json` unmarshals every JSON number into `float64`
(IEEE-754 binary64) via `strconv.ParseFloat`, which rounds the decimal
literal to the nearest binary64 value (ties to even).  For a decimal
integer literal this amounts to rounding the integer to 53 significant
bits.  `roundF64Nat`/`roundF64Int` implement exactly that rounding (no
overflow handling is needed: every `int64` magnitude is far below the
binary64 overflow threshold). -/

/-- Number of low bits that must be dropped to leave a 53-bit significand:
halve until the value falls below `2^53`.  The first argument is fuel
(structural recursion; `m` itself is always enough fuel). -/
def f64Scale : Nat → Nat → Nat
  | 0, _ => 0
  | fuel + 1, m => if m < 2 ^ 53 then 0 else f64Scale fuel (m / 2) + 1

/-- Round a natural number to the nearest binary64-representable value
(53 significant bits, ties to even).  Numbers up to `2^53` are exactly
representable and are returned unchanged. -/
def roundF64Nat (n : Nat) : Nat :=
  if n ≤ 2 ^ 53 then n
  else
    let k := f64Scale n n
    let q := n / 2 ^ k
    let r := n % 2 ^ k
    let h := 2 ^ (k - 1)
    if h < r ∨ (r = h ∧ q % 2 = 1) then (q + 1) * 2 ^ k else q * 2 ^ k

/-- Round an integer to the nearest binary64-representable value. -/
def roundF64Int (n : Int) : Int :=
  if n < 0 then -(roundF64Nat n.natAbs : Nat) else (roundF64Nat n.natAbs : Nat)

/-- The binary64 value obtained by parsing the decimal literal of `n`,
as a rational number. -/
def f64OfInt (n : Int) : ℚ := (roundF64Int n : ℚ)

/-- Go's `int64(f)` conversion on a `float64`: truncation toward zero,
which on a rational `num/den` is t-division of the numerator by the
denominator.  (The Go spec leaves out-of-range conversions
implementation-defined, so theorems carry explicit range hypotheses.) -/
def ratTrunc (q : ℚ) : Int := Int.tdiv q.num (q.den : Int)

/-! ## Go dynamic values (`any`)

`GoVal` models the Go `any` values that can appear as a cursor's `ID` or
`Value`.  `vNull` is the nil interface value, `vFunc` stands for any value
`encoding/json` cannot marshal (functions, channels, ...).  Composite
values (slices, maps) are outside the modelled fragment; the cursor code
treats them opaquely and no claim depends on them. -/

inductive GoVal where
  | vNull
  | vBool (b : Bool)
  | vStr (s : String)
  | vInt (n : Int)
  | vFloat (f : ℚ)
  | vFunc
deriving DecidableEq, Repr

/-- `normalizeJSONNumber` from `cursor.go`: converts a `float64` that
represents a whole number back to `int64`
(`if f, ok := v.(float64); ok && f == float64(int64(f)) { return int64(f) }`). -/
def normalizeJSONNumber (v : GoVal) : GoVal :=
  match v with
  | .vFloat f => if f64OfInt (ratTrunc f) = f then .vInt (ratTrunc f) else .vFloat f
  | v => v

/-! ## JSON documents

`JScalar` models a scalar JSON value as it stands in the marshalled text.
A number in the text is either the exact decimal literal of an `int64`
(`numInt`, produced by marshalling a Go integer) or the
shortest-round-trip literal of a `float64` (`numFloat`, produced by
marshalling a Go float; Go guarantees this literal re-parses to the same
`float64`, so re-parsing is the identity in the model).  `Json` restricts
documents to scalars and flat objects — the shapes the cursor codec
produces and consumes. -/

inductive JScalar where
  | null
  | bool (b : Bool)
  | str (s : String)
  | numInt (n : Int)
  | numFloat (f : ℚ)
deriving DecidableEq, Repr

inductive Json where
  | scalar (s : JScalar)
  | obj (kvs : List (String × JScalar))
deriving DecidableEq, Repr

/-- Last-occurrence association lookup: Go's JSON decoder lets a later
duplicate key overwrite an earlier one, and for Go maps keys are unique
anyway. -/
def assocLast (m : List (String × α)) (k : String) : Option α :=
  match m with
  | [] => none
  | p :: rest =>
    match assocLast rest k with
    | some v => some v
    | none => if p.1 = k then some p.2 else none

/-- Unmarshalling a scalar JSON value into a Go `any`:
numbers become `float64`, per `encoding/json`. -/
def ofJScalar : JScalar → GoVal
  | .null => .vNull
  | .bool b => .vBool b
  | .str s => .vStr s
  | .numInt n => .vFloat (f64OfInt n)
  | .numFloat f => .vFloat f

/-! ## Cursor codec (`cursor.go`) -/

/-- `Cursor` from `cursor.go`.  `ID`/`Value` are Go `any` fields;
`GoVal.vNull` plays the role of the nil interface value. -/
structure Cursor where
  id : GoVal
  value : GoVal
deriving DecidableEq, Repr

/-- `json.Marshal` of a single `any` value (scalar fragment):
fails (`none`) on unmarshalable values. -/
def marshalVal : GoVal → Option JScalar
  | .vNull => some .null
  | .vBool b => some (.bool b)
  | .vStr s => some (.str s)
  | .vInt n => some (.numInt n)
  | .vFloat f => some (.numFloat f)
  | .vFunc => none

/-- `json.Marshal` of a `Cursor` value: an object with an `id` field and,
per the `omitempty` tag (which for an interface-typed field omits only the
nil interface), a `value` field exactly when `Value` is non-nil.  Fails if
either present field is unmarshalable. -/
def marshalCursor (c : Cursor) : Option Json :=
  match marshalVal c.id with
  | none => none
  | some jid =>
    match c.value with
    | .vNull => some (.obj [("id", jid)])
    | v =>
      match marshalVal v with
      | none => none
      | some jv => some (.obj [("id", jid), ("value", jv)])

/-- An opaque cursor token (a Go string).  Base64 framing and JSON text
syntax are bijective framings of a parsed document, so the token is
modelled by which stage of `DecodeCursor` it survives: the empty string,
a string that is not valid URL-safe base64, valid base64 whose payload is
not valid JSON, or valid base64 of a valid JSON document. -/
inductive Token where
  | empty
  | notBase64
  | notJSON
  | json (j : Json)
deriving DecidableEq, Repr

/-- `EncodeCursor` from `cursor.go`: nil cursor encodes to `""`, a
marshalling error also yields `""`, otherwise the base64 of the JSON
document. -/
def EncodeCursor : Option Cursor → Token
  | none => .empty
  | some c =>
    match marshalCursor c with
    | none => .empty
    | some j => .json j

/-- `json.Unmarshal` of a document into a `Cursor` struct: an object
populates the `id`/`value` fields (absent keys leave the nil zero value),
top-level `null` leaves the struct zeroed, and any other top-level shape
is a type error. -/
def unmarshalCursor : Json → Option Cursor
  | .obj kvs =>
    some ⟨((assocLast kvs "id").map ofJScalar).getD .vNull,
          ((assocLast kvs "value").map ofJScalar).getD .vNull⟩
  | .scalar .null => some ⟨.vNull, .vNull⟩
  | .scalar _ => none

/-- `DecodeCursor` from `cursor.go`. -/
def DecodeCursor : Token → Except String Cursor
  | .empty => .error "cursor cannot be empty"
  | .notBase64 => .error "invalid cursor encoding"
  | .notJSON => .error "invalid cursor data"
  | .json j =>
    match unmarshalCursor j with
    | none => .error "invalid cursor data"
    | some c =>
      if c.id = .vNull then .error "cursor missing required ID field"
      else .ok ⟨normalizeJSONNumber c.id, normalizeJSONNumber c.value⟩

/-- The id shapes for which the cursor round-trip is exact: a string, or an
integer whose magnitude is at most `2^53` (exactly representable in
binary64). -/
def ExactIntId (v : GoVal) : Prop :=
  (∃ s, v = .vStr s) ∨ (∃ n, v = .vInt n ∧ n.natAbs ≤ 2 ^ 53)

/-- The value shapes for which the cursor round-trip is exact: absent
(nil), a boolean, a string, an exactly representable integer, or a
non-whole float (a whole float decodes back as an integer instead). -/
def ExactValue (v : GoVal) : Prop :=
  v = .vNull ∨ (∃ b, v = .vBool b) ∨ (∃ s, v = .vStr s) ∨
    (∃ n, v = .vInt n ∧ n.natAbs ≤ 2 ^ 53) ∨ (∃ f, v = .vFloat f ∧ f.den ≠ 1)

/-! ## Annotation model (`part_004`, `funcs_scope.go`)

`FieldScope` is a string type in the source (`type FieldScope string`);
`DomainField` is the per-field annotation.  The embedding models the
fields the annotation resolver claims are about: the scopes list, the
required map, the capability booleans and the lookup flags, plus the
description string.  (`Validation`, `Example` and `Metadata` are
documentation payloads carried the same way and are outside the modelled
fragment.)  `Required` is a Go `map[FieldScope]bool`, modelled as an
association list whose keys are unique. -/

abbrev FieldScope := String

/-- `ScopeCreate` from the source. -/
def ScopeCreate : FieldScope := "create"

/-- `ScopeUpdate` from the source. -/
def ScopeUpdate : FieldScope := "update"

/-- `ScopeQuery` from the source. -/
def ScopeQuery : FieldScope := "query"

/-- `ScopeResponse` from the source. -/
def ScopeResponse : FieldScope := "response"

/-- `DomainField` from the source (modelled fragment). -/
structure DomainField where
  scopes : List FieldScope
  required : List (FieldScope × Bool)
  sensitive : Bool
  searchable : Bool
  sortable : Bool
  filterable : Bool
  uniqueLookup : Bool
  rangeLookup : Bool
  description : String
deriving DecidableEq, Repr

/-- A value of a generic `map[string]interface\x7b\x7d` annotation store, as it
arrives from a deserialized (JSON) schema representation. -/
inductive MVal where
  | null
  | bool (b : Bool)
  | str (s : String)
  | num (q : ℚ)
  | list (xs : List MVal)
  | obj (kvs : List (String × MVal))

/-- Decoding a JSON array of scope names into `[]FieldScope`: every
element must be a string (`FieldScope` has string kind, so any string is
accepted; a `null` element leaves the zero value `""`); any other element
is a type error. -/
def decodeScopeList : List MVal → Option (List FieldScope)
  | [] => some []
  | .str s :: rest => (decodeScopeList rest).map (fun l => s :: l)
  | .null :: rest => (decodeScopeList rest).map (fun l => "" :: l)
  | _ => none

/-- Decoding a JSON object into `map[FieldScope]bool`: every value must be
a boolean (`null` leaves the zero value `false`); any other value is a
type error. -/
def decodeRequiredList : List (String × MVal) → Option (List (FieldScope × Bool))
  | [] => some []
  | (k, .bool b) :: rest => (decodeRequiredList rest).map (fun l => (k, b) :: l)
  | (k, .null) :: rest => (decodeRequiredList rest).map (fun l => (k, false) :: l)
  | _ => none

/-- Decoding one struct field of slice-of-scopes type: an absent key or a
`null` leaves the zero value (nil slice). -/
def decodeScopesVal : Option MVal → Option (List FieldScope)
  | none => some []
  | some .null => some []
  | some (.list xs) => decodeScopeList xs
  | some _ => none

/-- Decoding one struct field of map type: an absent key or a `null`
leaves the zero value (nil map). -/
def decodeRequiredVal : Option MVal → Option (List (FieldScope × Bool))
  | none => some []
  | some .null => some []
  | some (.obj kvs) => decodeRequiredList kvs
  | some _ => none

/-- Decoding one struct field of `bool` type. -/
def decodeBoolVal : Option MVal → Option Bool
  | none => some false
  | some .null => some false
  | some (.bool b) => some b
  | some _ => none

/-- Decoding one struct field of `string` type. -/
def decodeStrVal : Option MVal → Option String
  | none => some ""
  | some .null => some ""
  | some (.str s) => some s
  | some _ => none

/-- `json.Unmarshal(json.Marshal(m), &df)` for a generic string-keyed map
`m`, decoding into the `DomainField` struct by its JSON tags.  Unknown
keys are ignored; a wrong value type for any known key makes the whole
unmarshal return an error (`none`) — the caller then discards any
partially populated struct. -/
def unmarshalDomainField (m : List (String × MVal)) : Option DomainField := do
  let scopes ← decodeScopesVal (assocLast m "scopes")
  let required ← decodeRequiredVal (assocLast m "required")
  let sensitive ← decodeBoolVal (assocLast m "sensitive")
  let searchable ← decodeBoolVal (assocLast m "searchable")
  let sortable ← decodeBoolVal (assocLast m "sortable")
  let filterable ← decodeBoolVal (assocLast m "filterable")
  let uniqueLookup ← decodeBoolVal (assocLast m "unique_lookup")
  let rangeLookup ← decodeBoolVal (assocLast m "range_lookup")
  let description ← decodeStrVal (assocLast m "description")
  some ⟨scopes, required, sensitive, searchable, sortable, filterable,
        uniqueLookup, rangeLookup, description⟩

/-- The dynamic shapes the `"DomainField"` entry of a field annotation
store can take: the concretely-typed `*DomainField` (codegen time), the
generic string-keyed map (deserialized schema), or any other dynamic type
(the resolver's final fallthrough). -/
inductive AnnVal where
  | concrete (df : DomainField)
  | mapForm (m : List (String × MVal))
  | otherShape

/-- `getDomainFieldAnnotation` from `funcs_scope.go` (the argument is the
`Annotations["DomainField"]` entry, `none` when absent): a concrete value
is used directly; a map is JSON round-tripped into `DomainField`, with any
error yielding nil; anything else yields nil. -/
def getDomainFieldAnnot : Option AnnVal → Option DomainField
  | none => none
  | some (.concrete df) => some df
  | some (.mapForm m) => unmarshalDomainField m
  | some .otherShape => none

/-- One conditionally emitted key of a JSON object: present exactly when
`c` holds (the `omitempty` rule for the field's kind). -/
def seg (c : Prop) [Decidable c] (k : String) (v : MVal) : List (String × MVal) :=
  if c then [(k, v)] else []

/-- The generic-map form equivalent to a `DomainField` value: the result
of JSON-serializing the annotation (struct tags with `omitempty`, so empty
lists, `false` booleans and empty strings are omitted), as a string-keyed
map.  Segment order follows struct declaration order; `assocLast` is
order-insensitive for distinct keys. -/
def mapOfDomainField (df : DomainField) : List (String × MVal) :=
  seg (df.scopes ≠ []) "scopes" (MVal.list (df.scopes.map MVal.str)) ++
  (seg (df.required ≠ []) "required"
      (MVal.obj (df.required.map (fun p => (p.1, MVal.bool p.2)))) ++
  (seg (df.description ≠ "") "description" (MVal.str df.description) ++
  (seg (df.sensitive = true) "sensitive" (MVal.bool true) ++
  (seg (df.searchable = true) "searchable" (MVal.bool true) ++
  (seg (df.sortable = true) "sortable" (MVal.bool true) ++
  (seg (df.filterable = true) "filterable" (MVal.bool true) ++
  (seg (df.uniqueLookup = true) "unique_lookup" (MVal.bool true) ++
  (seg (df.rangeLookup = true) "range_lookup" (MVal.bool true) ++
    ([] : List (String × MVal))))))))))

/-! ## Codegen field selectors and lookup-method synthesis
(`funcs_fields.go`, `part_004`)

`GenField`/`GenType` model the `entgo` `gen.Field`/`gen.Type` descriptors
in the fragment the lookup-method synthesis reads: the field's Go struct
name, its type string, and its `Annotations["DomainField"]` entry
(`annot`, `none` when the store has no such key). -/

structure GenField where
  name : String
  structField : String
  typeStr : String
  annot : Option AnnVal

structure GenType where
  name : String
  fields : List GenField

/-- `domainFields` from `funcs_fields.go`: all fields with a resolvable
DomainField annotation. -/
def domainFields (node : GenType) : List GenField :=
  node.fields.filter (fun f => (getDomainFieldAnnot f.annot).isSome)

/-- `isUniqueLookupField` from the source. -/
def isUniqueLookupField (f : GenField) : Bool :=
  match getDomainFieldAnnot f.annot with
  | none => false
  | some a => a.uniqueLookup

/-- `uniqueLookupFields` from `funcs_fields.go`. -/
def uniqueLookupFields (node : GenType) : List GenField :=
  (domainFields node).filter (fun f => isUniqueLookupField f)

/-- `rangeLookupFields` from `funcs_fields.go`. -/
def rangeLookupFields (node : GenType) : List GenField :=
  (domainFields node).filter (fun f =>
    match getDomainFieldAnnot f.annot with
    | none => false
    | some a => a.rangeLookup)

/-- `strings.ToLower` (ASCII fragment; Go struct-field names are ASCII). -/
def goToLower (s : String) : String := ⟨s.data.map Char.toLower⟩

/-- The `FindBy<Field>` method signature string built by `specificMethods`. -/
def uniqueSig (node : GenType) (f : GenField) : String :=
  "FindBy" ++ f.structField ++ "(ctx context.Context, " ++ goToLower f.structField ++
    " " ++ f.typeStr ++ ") (*" ++ node.name ++ "DomainModel, error)"

/-- The `FindBy<Field>Range` method signature string built by
`specificMethods`. -/
def rangeSig (node : GenType) (f : GenField) : String :=
  "FindBy" ++ f.structField ++ "Range(ctx context.Context, start, end time.Time) ([]*" ++
    node.name ++ "DomainModel, error)"

/-- The dedup key `methodKey` used for `FindBy<Field>`. -/
def uniqueKey (f : GenField) : String := "FindBy" ++ f.structField

/-- The dedup key `methodKey` used for `FindBy<Field>Range`. -/
def rangeKey (f : GenField) : String := "FindBy" ++ f.structField ++ "Range"

/-- One generation loop of `specificMethods`: walk the fields, appending
the signature `mk f` unless the key `key f` is already in the `generated`
set (the Go `map[string]bool`, modelled as a list with membership). -/
def specMethodsLoop (mk : GenField → String) (key : GenField → String) :
    List GenField → List String → List String → List String × List String
  | [], methods, generated => (methods, generated)
  | f :: rest, methods, generated =>
    if key f ∈ generated then specMethodsLoop mk key rest methods generated
    else specMethodsLoop mk key rest (methods ++ [mk f]) (generated ++ [key f])

/-- `specificMethods` from `part_004`: the unique-lookup loop followed by
the range-lookup loop, sharing one `generated` set. -/
def specificMethods (node : GenType) : List String :=
  (specMethodsLoop (rangeSig node) rangeKey (rangeLookupFields node)
    (specMethodsLoop (uniqueSig node) uniqueKey (uniqueLookupFields node) [] []).1
    (specMethodsLoop (uniqueSig node) uniqueKey (uniqueLookupFields node) [] []).2).1

/-- Specification-side definition, following the claim's words: keep the
first signature for each method name, dropping later duplicates.  The
pairs carry (method name, full signature). -/
def specFirstOnly : List (String × String) → List String → List String
  | [], _ => []
  | p :: rest, seen =>
    if p.1 ∈ seen then specFirstOnly rest seen
    else p.2 :: specFirstOnly rest (seen ++ [p.1])

/-- The method names `specFirstOnly` adds to the seen set. -/
def specSeenKeys : List (String × String) → List String → List String
  | [], _ => []
  | p :: rest, seen =>
    if p.1 ∈ seen then specSeenKeys rest seen
    else p.1 :: specSeenKeys rest (seen ++ [p.1])

/-- Specification-side definition, following the claim's words: one
`FindBy<Field>` signature per unique-lookup field and one
`FindBy<Field>Range` signature per range-lookup field, de-duplicated by
method name. -/
def specLookupSignatures (node : GenType) : List String :=
  specFirstOnly
    ((uniqueLookupFields node).map (fun f => (uniqueKey f, uniqueSig node f)) ++
     (rangeLookupFields node).map (fun f => (rangeKey f, rangeSig node f))) []

/-! ## Identifiers (`types.go`)

The `ID` interface has exactly two implementations, `StringID` and
`Int64ID`, modelled as the closed sum `EntID`.  `int64` values are
modelled as `Int` (range does not matter for these operations). -/

inductive EntID where
  | strID (s : String)
  | intID (n : Int)
deriving DecidableEq, Repr

/-- `StringID.String` / `Int64ID.String`. -/
def EntID.string : EntID → String
  | .strID s => s
  | .intID n => toString n

/-- `StringID.IsZero` / `Int64ID.IsZero`. -/
def EntID.isZero : EntID → Bool
  | .strID s => s == ""
  | .intID n => n == 0

/-- An ASCII decimal digit, `strconv`'s per-character acceptance test in
base 10. -/
def isDigit (c : Char) : Bool := '0' ≤ c ∧ c ≤ '9'

/-- The numeric value of a digit string (most significant first). -/
def digitsToNat (l : List Char) : Nat :=
  l.foldl (fun a c => a * 10 + (c.toNat - 48)) 0

/-- The digit phase of `strconv.ParseInt(s, 10, 64)` after the sign has
been split off: at least one digit, all digits, and the value within
`int64` range (magnitude at most `2^63` when negative, `2^63 - 1`
otherwise); syntax errors and range errors are both errors. -/
def parseDigitsInt (neg : Bool) (ds : List Char) : Except String Int :=
  if ds = [] then .error "invalid syntax"
  else if ds.all isDigit then
    if neg then
      if (digitsToNat ds : Int) ≤ 2 ^ 63 then .ok (-(digitsToNat ds : Int))
      else .error "value out of range"
    else
      if (digitsToNat ds : Int) ≤ 2 ^ 63 - 1 then .ok ((digitsToNat ds : Int))
      else .error "value out of range"
  else .error "invalid syntax"

/-- The sign phase of `strconv.ParseInt(s, 10, 64)`: empty input is a
syntax error, a leading `+`/`-` is consumed and only `-` negates. -/
def parseIntList : List Char → Except String Int
  | [] => .error "invalid syntax"
  | c :: rest =>
    if c = '-' ∨ c = '+' then parseDigitsInt (c == '-') rest
    else parseDigitsInt false (c :: rest)

/-- `strconv.ParseInt(s, 10, 64)` on the string's characters. -/
def parseInt64 (s : String) : Except String Int :=
  parseIntList s.toList

/-- `StringID.Int64` / `Int64ID.Int64`. -/
def EntID.int64 : EntID → Except String Int
  | .strID s => parseInt64 s
  | .intID n => .ok n

/-! ## Requests (`types.go`) -/

/-- `DefaultPageSize` from `types.go`. -/
def DefaultPageSize : Int := 20

/-- `MaxPageSize` from `types.go`. -/
def MaxPageSize : Int := 1000

/-- `ListRequest` from `types.go` (Go `int` fields modelled as `Int`). -/
structure ListRequest where
  size : Int
  page : Int
  sortBy : String
  order : String
  cursor : String
deriving DecidableEq, Repr

/-- `ListRequest.SetDefaults`. -/
def ListRequest.setDefaults (r : ListRequest) : ListRequest :=
  if r.size = 0 then ⟨DefaultPageSize, r.page, r.sortBy, r.order, r.cursor⟩ else r

/-- `ListRequest.Validate` (the nil-receiver guard is a Go artifact with
no counterpart on a value; the Go message quotes asc/desc, rendered here
without the quote characters). -/
def ListRequest.validate (r : ListRequest) : Except String Unit :=
  if r.size < 0 then .error "size cannot be negative"
  else if MaxPageSize < r.size then .error "size cannot exceed 1000"
  else if r.page < 0 then .error "page cannot be negative"
  else if r.order ≠ "" ∧ r.order ≠ "asc" ∧ r.order ≠ "desc" then
    .error "order must be asc or desc"
  else .ok ()

/-- `SearchRequest` from `types.go`; `Filters` is a `map[string]any`,
modelled as an association list. -/
structure SearchRequest where
  query : String
  filters : List (String × MVal)
  size : Int
  page : Int
  sortBy : String
  order : String

/-- `SearchRequest.SetDefaults`. -/
def SearchRequest.setDefaults (r : SearchRequest) : SearchRequest :=
  if r.size = 0 then ⟨r.query, r.filters, DefaultPageSize, r.page, r.sortBy, r.order⟩ else r

/-- `SearchRequest.Validate`. -/
def SearchRequest.validate (r : SearchRequest) : Except String Unit :=
  if r.query = "" ∧ r.filters.length = 0 then .error "either query or filters must be provided"
  else if r.size < 0 then .error "size cannot be negative"
  else if MaxPageSize < r.size then .error "size cannot exceed 1000"
  else if r.page < 0 then .error "page cannot be negative"
  else if r.order ≠ "" ∧ r.order ≠ "asc" ∧ r.order ≠ "desc" then
    .error "order must be asc or desc"
  else .ok ()

/-- True when an `Except` is an error. -/
def hasErr {ε α : Type} : Except ε α → Bool
  | .error _ => true
  | .ok _ => false

/-! ## Generic CRUD runtime (the service in `extension.go`)

Go errors built with stage prefixes wrapping a cause form a chain;
`GoError` models an error as a leaf message or a stage prefix wrapping a
cause, with the cause inspectable through `GoError.cause` (Go
`errors.Unwrap`). -/

inductive GoError where
  | msg (s : String)
  | wrapped (pre : String) (cause : GoError)
deriving DecidableEq, Repr

/-- `errors.Unwrap`. -/
def GoError.cause : GoError → Option GoError
  | .msg _ => none
  | .wrapped _ e => some e

/-- The repository operations `BaseGenericDomainService.Update` can reach,
with the domain-model contract it needs (`SetID`) and the response
converter.  `T` is the domain model, `R` the response DTO. -/
structure UpdateEnv (T R : Type) where
  getByID : EntID → Except GoError T
  update : T → Except GoError T
  setID : T → EntID → T
  toResponse : T → R

/-- An `UpdateRequest`: validation plus `ApplyToDomainModel`. -/
structure UpdateReq (T : Type) where
  validate : Except GoError Unit
  applyToDomainModel : T → T

/-- A recorded storage call, used to observe which repository operations
an orchestration actually invoked. -/
inductive RepoCall (T : Type) where
  | getByID (id : EntID)
  | update (m : T)
deriving DecidableEq, Repr

/-- `BaseGenericDomainService.Update` from the source, instrumented to
also return the list of repository calls it performed: reject a zero ID,
validate, fetch the existing model (wrapping a failure with the
"failed to get existing model" prefix), apply the partial update,
re-impose the id via `SetID`, delegate to storage update (wrapping a
failure), convert to a response.  (The interface-to-`T` type assertions of
the Go code cannot fail in the typed model.) -/
def svcUpdate {T R : Type} (env : UpdateEnv T R) (id : EntID) (req : UpdateReq T) :
    Except GoError R × List (RepoCall T) :=
  if id.isZero then (.error (.msg ("invalid ID: " ++ id.string)), [])
  else
    match req.validate with
    | .error e => (.error (.wrapped "validation failed" e), [])
    | .ok _ =>
      match env.getByID id with
      | .error e => (.error (.wrapped "failed to get existing model" e), [.getByID id])
      | .ok existing =>
        let updated := env.setID (req.applyToDomainModel existing) id
        match env.update updated with
        | .error e => (.error (.wrapped "failed to update" e), [.getByID id, .update updated])
        | .ok result => (.ok (env.toResponse result), [.getByID id, .update updated])

/-- The repository operation `BaseGenericDomainService.List` delegates to,
with the list-response converter. -/
structure ListEnv (T LR : Type) where
  list : ListRequest → Except GoError (List T × Int)
  toListResponse : List T → Int → Int → Int → LR

/-- `BaseGenericDomainService.List` from the source, instrumented to also
return the `ListRequest` it sent to storage: clamp the size to the
default when nonpositive or above the maximum, clamp a negative page to
0, build the request, delegate, wrap a failure, convert. -/
def svcList {T LR : Type} (env : ListEnv T LR) (page size : Int) (sortBy order : String) :
    Except GoError LR × ListRequest :=
  let size2 := if size ≤ 0 ∨ MaxPageSize < size then DefaultPageSize else size
  let page2 := if page < 0 then 0 else page
  let req : ListRequest := ⟨size2, page2, sortBy, order, ""⟩
  match env.list req with
  | .error e => (.error (.wrapped "failed to list" e), req)
  | .ok mt => (.ok (env.toListResponse mt.1 mt.2 page2 size2), req)

/-! ### Identifier theorems -/

/-- Specification-side predicate, following the claim's words: the string
parses as a base-10 64-bit integer — an optional `+`/`-` sign, at least
one digit, nothing but digits, and the resulting value within `int64`
range (`-2^63` to `2^63 - 1`). -/
def Int64Numeral (s : String) : Prop :=
  ∃ ds : List Char, ds ≠ [] ∧ (∀ c ∈ ds, isDigit c = true) ∧
    (s.toList = ds ∨ s.toList = '+' :: ds ∨ s.toList = '-' :: ds) ∧
    (if s.toList = '-' :: ds then (digitsToNat ds : Int) ≤ 2 ^ 63
     else (digitsToNat ds : Int) ≤ 2 ^ 63 - 1)

/-! ## Theorems -/

theorem roundF64Nat_of_le {n : Nat} (h : n ≤ 2 ^ 53) : roundF64Nat n = n := by
  unfold roundF64Nat
  rw [if_pos h]

theorem roundF64Int_of_natAbs_le {n : Int} (h : n.natAbs ≤ 2 ^ 53) :
    roundF64Int n = n := by
  unfold roundF64Int
  rw [roundF64Nat_of_le h]
  split <;> omega

theorem ratTrunc_intCast (n : Int) : ratTrunc (n : ℚ) = n := by
  unfold ratTrunc
  rw [Rat.num_intCast, Rat.den_intCast]
  simp [Int.tdiv_one]

/-! ### Cursor lemmas -/

theorem normalize_vFloat_intCast {n : Int} (h : n.natAbs ≤ 2 ^ 53) :
    normalizeJSONNumber (.vFloat ((n : ℚ))) = .vInt n := by
  have hcond : f64OfInt (ratTrunc ((n : ℚ))) = ((n : ℚ)) := by
    rw [ratTrunc_intCast, f64OfInt, roundF64Int_of_natAbs_le h]
  simp only [normalizeJSONNumber]
  rw [if_pos hcond, ratTrunc_intCast]

theorem normalize_f64OfInt {n : Int} (h : n.natAbs ≤ 2 ^ 53) :
    normalizeJSONNumber (.vFloat (f64OfInt n)) = .vInt n := by
  rw [f64OfInt, roundF64Int_of_natAbs_le h]
  exact normalize_vFloat_intCast h

theorem normalize_vFloat_nonwhole {f : ℚ} (h : f.den ≠ 1) :
    normalizeJSONNumber (.vFloat f) = .vFloat f := by
  simp only [normalizeJSONNumber]
  rw [if_neg]
  intro hEq
  exact h (by rw [← hEq, f64OfInt, Rat.den_intCast])

theorem assocLast_pair_id (jid jv : JScalar) :
    assocLast [("id", jid), ("value", jv)] "id" = some jid := by
  have h1 : ¬ (("value" : String) = "id") := by decide
  simp [assocLast, h1]

theorem assocLast_pair_value (jid jv : JScalar) :
    assocLast [("id", jid), ("value", jv)] "value" = some jv := by
  simp [assocLast]

theorem decode_obj_pair {jid jv : JScalar} (h : ¬ ofJScalar jid = .vNull) :
    DecodeCursor (.json (.obj [("id", jid), ("value", jv)])) =
      .ok ⟨normalizeJSONNumber (ofJScalar jid), normalizeJSONNumber (ofJScalar jv)⟩ := by
  simp [DecodeCursor, unmarshalCursor, assocLast_pair_id, assocLast_pair_value, h]

theorem decode_obj_single {jid : JScalar} (h : ¬ ofJScalar jid = .vNull) :
    DecodeCursor (.json (.obj [("id", jid)])) =
      .ok ⟨normalizeJSONNumber (ofJScalar jid), .vNull⟩ := by
  have h2 : ¬ (("id" : String) = "value") := by decide
  simp [DecodeCursor, unmarshalCursor, assocLast, h, h2, normalizeJSONNumber]

theorem encode_value_null {idv : GoVal} {jid : JScalar} (h : marshalVal idv = some jid) :
    EncodeCursor (some ⟨idv, .vNull⟩) = .json (.obj [("id", jid)]) := by
  simp [EncodeCursor, marshalCursor, h]

theorem encode_value_some {idv v : GoVal} {jid jv : JScalar} (hv : ¬ v = .vNull)
    (h1 : marshalVal idv = some jid) (h2 : marshalVal v = some jv) :
    EncodeCursor (some ⟨idv, v⟩) = .json (.obj [("id", jid), ("value", jv)]) := by
  cases v <;> simp_all [EncodeCursor, marshalCursor, marshalVal]

/-- Claim C1 fails as stated: an `int64` id (or value) need not survive the
round-trip, because JSON decoding routes every number through `float64`.
At id `9007199254740993 = 2^53 + 1` the decoded id is the rounded value
`9007199254740992`; and a whole-number `float64` value comes back as an
`int64`, changing its backing kind. -/
theorem c1_roundtrip_counterexample :
    DecodeCursor (EncodeCursor (some ⟨.vInt 9007199254740993, .vNull⟩)) =
      .ok ⟨.vInt 9007199254740992, .vNull⟩ ∧
    DecodeCursor (EncodeCursor (some ⟨.vInt 9007199254740993, .vNull⟩)) ≠
      .ok ⟨.vInt 9007199254740993, .vNull⟩ ∧
    DecodeCursor (EncodeCursor (some ⟨.vStr "a", .vFloat 3⟩)) =
      .ok ⟨.vStr "a", .vInt 3⟩ ∧
    GoVal.vInt 3 ≠ GoVal.vFloat 3 := by
  refine ⟨rfl, ?_, rfl, by decide⟩
  intro h
  rw [show DecodeCursor (EncodeCursor (some ⟨.vInt 9007199254740993, .vNull⟩)) =
      .ok ⟨.vInt 9007199254740992, .vNull⟩ from rfl] at h
  simp only [Except.ok.injEq, Cursor.mk.injEq, GoVal.vInt.injEq] at h
  omega

/-- Claim C1 (amended): for every cursor whose id is a string or an integer
exactly representable in binary64 (magnitude at most `2^53`) and whose
value is nil, a boolean, a string, an exactly representable integer, or a
non-whole float, `DecodeCursor (EncodeCursor c)` succeeds and reconstructs
an id and a value equal to the originals, of the same backing kind. -/
theorem c1_cursor_roundtrip (idv v : GoVal) (hid : ExactIntId idv) (hv : ExactValue v) :
    DecodeCursor (EncodeCursor (some ⟨idv, v⟩)) = .ok ⟨idv, v⟩ := by
  have hmid : ∀ w : GoVal, ExactIntId w →
      ∃ j, marshalVal w = some j ∧ ¬ ofJScalar j = .vNull ∧
        normalizeJSONNumber (ofJScalar j) = w := by
    rintro w (⟨s, rfl⟩ | ⟨n, rfl, hn⟩)
    · exact ⟨.str s, rfl, by simp [ofJScalar], rfl⟩
    · exact ⟨.numInt n, rfl, by simp [ofJScalar, f64OfInt], normalize_f64OfInt hn⟩
  obtain ⟨jid, hjid, hnn, hnorm⟩ := hmid idv hid
  rcases hv with rfl | ⟨b, rfl⟩ | ⟨s', rfl⟩ | ⟨m, rfl, hm⟩ | ⟨f, rfl, hf⟩
  · rw [encode_value_null hjid, decode_obj_single hnn, hnorm]
  · rw [encode_value_some (by simp) hjid
      (show marshalVal (GoVal.vBool b) = some (JScalar.bool b) from rfl),
      decode_obj_pair hnn, hnorm]
    rfl
  · rw [encode_value_some (by simp) hjid
      (show marshalVal (GoVal.vStr s') = some (JScalar.str s') from rfl),
      decode_obj_pair hnn, hnorm]
    rfl
  · rw [encode_value_some (by simp) hjid
      (show marshalVal (GoVal.vInt m) = some (JScalar.numInt m) from rfl),
      decode_obj_pair hnn, hnorm]
    simp only [ofJScalar]
    rw [normalize_f64OfInt hm]
  · rw [encode_value_some (by simp) hjid
      (show marshalVal (GoVal.vFloat f) = some (JScalar.numFloat f) from rfl),
      decode_obj_pair hnn, hnorm]
    simp only [ofJScalar]
    rw [normalize_vFloat_nonwhole hf]

/-- Claim C1 (amended) at a concrete input: the round-trip of
`{id: 42, value: "p"}`. -/
theorem c1_cursor_roundtrip_witness :
    DecodeCursor (EncodeCursor (some ⟨.vInt 42, .vStr "p"⟩)) = .ok ⟨.vInt 42, .vStr "p"⟩ :=
  c1_cursor_roundtrip _ _ (Or.inr ⟨42, rfl, by decide⟩) (Or.inr (Or.inr (Or.inl ⟨"p", rfl⟩)))

/-- Claim C2: a decoded field that arrived as a `float64` and holds a whole
number (necessarily binary64-representable, which is what
`roundF64Int f.num = f.num` expresses) in `int64` range is normalized to
an `int64` equal to the original integer; every non-whole value passes
through unchanged. -/
theorem c2_numeric_normalization :
    (∀ f : ℚ, f.den = 1 → f.num.natAbs < 2 ^ 63 → roundF64Int f.num = f.num →
      normalizeJSONNumber (.vFloat f) = .vInt f.num ∧ (f.num : ℚ) = f) ∧
    (∀ f : ℚ, f.den ≠ 1 → normalizeJSONNumber (.vFloat f) = .vFloat f) := by
  constructor
  · intro f hden _ hrepr
    have hf : (f.num : ℚ) = f := by
      conv_rhs => rw [← Rat.num_div_den f]
      rw [hden]
      simp
    have hcond : f64OfInt (ratTrunc ((f.num : ℚ))) = ((f.num : ℚ)) := by
      rw [ratTrunc_intCast, f64OfInt, hrepr]
    refine ⟨?_, hf⟩
    conv_lhs => rw [← hf]
    simp only [normalizeJSONNumber]
    rw [if_pos hcond, ratTrunc_intCast]
  · intro f hf
    exact normalize_vFloat_nonwhole hf

/-- Claim C2 at concrete inputs: the whole number `7.0` normalizes to the
integer `7`, and the non-whole `5/2` passes through unchanged. -/
theorem c2_numeric_normalization_witness :
    (normalizeJSONNumber (.vFloat 7) = .vInt (7 : ℚ).num ∧ ((7 : ℚ).num : ℚ) = 7) ∧
      normalizeJSONNumber (.vFloat (mkRat 5 2)) = .vFloat (mkRat 5 2) :=
  ⟨c2_numeric_normalization.1 7 (by decide) (by decide) (by decide),
   c2_numeric_normalization.2 (mkRat 5 2) (by decide)⟩

/-- Claim C6: `EncodeCursor nil = ""` and not an error; `DecodeCursor`
returns a decode error on the empty token, on invalid base64, on a
valid-base64 but invalid-JSON payload, and on a decoded object without an
`id` field; and it is total (never panics): every token yields either an
error or a cursor. -/
theorem c6_codec_edge_cases :
    EncodeCursor none = Token.empty ∧
    (∃ e, DecodeCursor Token.empty = .error e) ∧
    (∃ e, DecodeCursor Token.notBase64 = .error e) ∧
    (∃ e, DecodeCursor Token.notJSON = .error e) ∧
    (∀ kvs, assocLast kvs "id" = none →
      ∃ e, DecodeCursor (.json (.obj kvs)) = .error e) ∧
    (∀ t, (∃ e, DecodeCursor t = .error e) ∨ (∃ c, DecodeCursor t = .ok c)) := by
  refine ⟨rfl, ⟨_, rfl⟩, ⟨_, rfl⟩, ⟨_, rfl⟩, ?_, ?_⟩
  · intro kvs h
    refine ⟨"cursor missing required ID field", ?_⟩
    simp [DecodeCursor, unmarshalCursor, h]
  · intro t
    match t with
    | .empty => exact Or.inl ⟨_, rfl⟩
    | .notBase64 => exact Or.inl ⟨_, rfl⟩
    | .notJSON => exact Or.inl ⟨_, rfl⟩
    | .json j =>
      rcases hu : unmarshalCursor j with _ | c
      · exact Or.inl ⟨"invalid cursor data", by simp [DecodeCursor, hu]⟩
      · by_cases hid : c.id = .vNull
        · exact Or.inl ⟨"cursor missing required ID field",
            by simp [DecodeCursor, hu, hid]⟩
        · exact Or.inr ⟨⟨normalizeJSONNumber c.id, normalizeJSONNumber c.value⟩,
            by simp [DecodeCursor, hu, hid]⟩

/-- Claim C6 at a concrete input: decoding a JSON object that has a
`value` field but no `id` field fails. -/
theorem c6_codec_edge_cases_witness :
    ∃ e, DecodeCursor (.json (.obj [("value", JScalar.str "x")])) = .error e :=
  c6_codec_edge_cases.2.2.2.2.1 [("value", JScalar.str "x")] rfl

/-- Claim C9: `EncodeCursor` collapses every failure to the empty string —
both a nil cursor and a non-nil cursor whose `ID` or `Value` is
unmarshalable (modelled by `GoVal.vFunc`: a function or channel value)
encode to `""`, so the two situations are indistinguishable to a caller. -/
theorem c9_encode_failure_to_empty :
    EncodeCursor none = Token.empty ∧
    (∀ c : Cursor, c.id = .vFunc ∨ c.value = .vFunc →
      EncodeCursor (some c) = Token.empty) := by
  refine ⟨rfl, ?_⟩
  rintro ⟨cid, cv⟩ (h | h) <;> simp only at h <;> subst h
  · rfl
  · cases cid <;> rfl

/-- Claim C9 at a concrete input: a non-nil cursor with an unmarshalable
id encodes to the same empty token as the nil cursor. -/
theorem c9_encode_failure_to_empty_witness :
    EncodeCursor (some ⟨.vFunc, .vNull⟩) = Token.empty :=
  c9_encode_failure_to_empty.2 ⟨.vFunc, .vNull⟩ (Or.inl rfl)

/-! ### Annotation resolver lemmas -/

theorem assocLast_nil (k : String) : assocLast ([] : List (String × MVal)) k = none := rfl

theorem assocLast_append (a b : List (String × α)) (k : String) :
    assocLast (a ++ b) k = (assocLast b k).or (assocLast a k) := by
  induction a with
  | nil =>
    show assocLast b k = (assocLast b k).or (assocLast [] k)
    cases assocLast b k <;> rfl
  | cons p rest ih =>
    show (match assocLast (rest ++ b) k with
          | some v => some v
          | none => if p.1 = k then some p.2 else none) = _
    rw [ih]
    cases assocLast b k <;> cases hr : assocLast rest k <;>
      simp [assocLast, Option.or, hr]

theorem assocLast_seg_skip {c : Prop} [Decidable c] {k' k : String} {v : MVal}
    {rest : List (String × MVal)} (h : ¬ k' = k) :
    assocLast (seg c k' v ++ rest) k = assocLast rest k := by
  rw [assocLast_append]
  have hseg : assocLast (seg c k' v) k = none := by
    by_cases hc : c <;> simp [seg, hc, assocLast, h]
  rw [hseg]
  cases assocLast rest k <;> rfl

theorem assocLast_seg_here {c : Prop} [Decidable c] {k : String} {v : MVal}
    {rest : List (String × MVal)} :
    assocLast (seg c k v ++ rest) k =
      (assocLast rest k).or (if c then some v else none) := by
  rw [assocLast_append]
  have hseg : assocLast (seg c k v) k = if c then some v else none := by
    by_cases hc : c <;> simp [seg, hc, assocLast]
  rw [hseg]

theorem lookup_scopes (df : DomainField) :
    assocLast (mapOfDomainField df) "scopes" =
      if df.scopes ≠ [] then some (MVal.list (df.scopes.map MVal.str)) else none := by
  unfold mapOfDomainField
  rw [      assocLast_seg_here,
      assocLast_seg_skip (show ¬ ("required" = "scopes") by decide),
      assocLast_seg_skip (show ¬ ("description" = "scopes") by decide),
      assocLast_seg_skip (show ¬ ("sensitive" = "scopes") by decide),
      assocLast_seg_skip (show ¬ ("searchable" = "scopes") by decide),
      assocLast_seg_skip (show ¬ ("sortable" = "scopes") by decide),
      assocLast_seg_skip (show ¬ ("filterable" = "scopes") by decide),
      assocLast_seg_skip (show ¬ ("unique_lookup" = "scopes") by decide),
      assocLast_seg_skip (show ¬ ("range_lookup" = "scopes") by decide),
      assocLast_nil]
  rfl

theorem lookup_required (df : DomainField) :
    assocLast (mapOfDomainField df) "required" =
      if df.required ≠ [] then some (MVal.obj (df.required.map (fun p => (p.1, MVal.bool p.2)))) else none := by
  unfold mapOfDomainField
  rw [      assocLast_seg_skip (show ¬ ("scopes" = "required") by decide),
      assocLast_seg_here,
      assocLast_seg_skip (show ¬ ("description" = "required") by decide),
      assocLast_seg_skip (show ¬ ("sensitive" = "required") by decide),
      assocLast_seg_skip (show ¬ ("searchable" = "required") by decide),
      assocLast_seg_skip (show ¬ ("sortable" = "required") by decide),
      assocLast_seg_skip (show ¬ ("filterable" = "required") by decide),
      assocLast_seg_skip (show ¬ ("unique_lookup" = "required") by decide),
      assocLast_seg_skip (show ¬ ("range_lookup" = "required") by decide),
      assocLast_nil]
  rfl

theorem lookup_description (df : DomainField) :
    assocLast (mapOfDomainField df) "description" =
      if df.description ≠ "" then some (MVal.str df.description) else none := by
  unfold mapOfDomainField
  rw [      assocLast_seg_skip (show ¬ ("scopes" = "description") by decide),
      assocLast_seg_skip (show ¬ ("required" = "description") by decide),
      assocLast_seg_here,
      assocLast_seg_skip (show ¬ ("sensitive" = "description") by decide),
      assocLast_seg_skip (show ¬ ("searchable" = "description") by decide),
      assocLast_seg_skip (show ¬ ("sortable" = "description") by decide),
      assocLast_seg_skip (show ¬ ("filterable" = "description") by decide),
      assocLast_seg_skip (show ¬ ("unique_lookup" = "description") by decide),
      assocLast_seg_skip (show ¬ ("range_lookup" = "description") by decide),
      assocLast_nil]
  rfl

theorem lookup_sensitive (df : DomainField) :
    assocLast (mapOfDomainField df) "sensitive" =
      if df.sensitive = true then some (MVal.bool true) else none := by
  unfold mapOfDomainField
  rw [      assocLast_seg_skip (show ¬ ("scopes" = "sensitive") by decide),
      assocLast_seg_skip (show ¬ ("required" = "sensitive") by decide),
      assocLast_seg_skip (show ¬ ("description" = "sensitive") by decide),
      assocLast_seg_here,
      assocLast_seg_skip (show ¬ ("searchable" = "sensitive") by decide),
      assocLast_seg_skip (show ¬ ("sortable" = "sensitive") by decide),
      assocLast_seg_skip (show ¬ ("filterable" = "sensitive") by decide),
      assocLast_seg_skip (show ¬ ("unique_lookup" = "sensitive") by decide),
      assocLast_seg_skip (show ¬ ("range_lookup" = "sensitive") by decide),
      assocLast_nil]
  rfl

theorem lookup_searchable (df : DomainField) :
    assocLast (mapOfDomainField df) "searchable" =
      if df.searchable = true then some (MVal.bool true) else none := by
  unfold mapOfDomainField
  rw [      assocLast_seg_skip (show ¬ ("scopes" = "searchable") by decide),
      assocLast_seg_skip (show ¬ ("required" = "searchable") by decide),
      assocLast_seg_skip (show ¬ ("description" = "searchable") by decide),
      assocLast_seg_skip (show ¬ ("sensitive" = "searchable") by decide),
      assocLast_seg_here,
      assocLast_seg_skip (show ¬ ("sortable" = "searchable") by decide),
      assocLast_seg_skip (show ¬ ("filterable" = "searchable") by decide),
      assocLast_seg_skip (show ¬ ("unique_lookup" = "searchable") by decide),
      assocLast_seg_skip (show ¬ ("range_lookup" = "searchable") by decide),
      assocLast_nil]
  rfl

theorem lookup_sortable (df : DomainField) :
    assocLast (mapOfDomainField df) "sortable" =
      if df.sortable = true then some (MVal.bool true) else none := by
  unfold mapOfDomainField
  rw [      assocLast_seg_skip (show ¬ ("scopes" = "sortable") by decide),
      assocLast_seg_skip (show ¬ ("required" = "sortable") by decide),
      assocLast_seg_skip (show ¬ ("description" = "sortable") by decide),
      assocLast_seg_skip (show ¬ ("sensitive" = "sortable") by decide),
      assocLast_seg_skip (show ¬ ("searchable" = "sortable") by decide),
      assocLast_seg_here,
      assocLast_seg_skip (show ¬ ("filterable" = "sortable") by decide),
      assocLast_seg_skip (show ¬ ("unique_lookup" = "sortable") by decide),
      assocLast_seg_skip (show ¬ ("range_lookup" = "sortable") by decide),
      assocLast_nil]
  rfl

theorem lookup_filterable (df : DomainField) :
    assocLast (mapOfDomainField df) "filterable" =
      if df.filterable = true then some (MVal.bool true) else none := by
  unfold mapOfDomainField
  rw [      assocLast_seg_skip (show ¬ ("scopes" = "filterable") by decide),
      assocLast_seg_skip (show ¬ ("required" = "filterable") by decide),
      assocLast_seg_skip (show ¬ ("description" = "filterable") by decide),
      assocLast_seg_skip (show ¬ ("sensitive" = "filterable") by decide),
      assocLast_seg_skip (show ¬ ("searchable" = "filterable") by decide),
      assocLast_seg_skip (show ¬ ("sortable" = "filterable") by decide),
      assocLast_seg_here,
      assocLast_seg_skip (show ¬ ("unique_lookup" = "filterable") by decide),
      assocLast_seg_skip (show ¬ ("range_lookup" = "filterable") by decide),
      assocLast_nil]
  rfl

theorem lookup_uniqueLookup (df : DomainField) :
    assocLast (mapOfDomainField df) "unique_lookup" =
      if df.uniqueLookup = true then some (MVal.bool true) else none := by
  unfold mapOfDomainField
  rw [      assocLast_seg_skip (show ¬ ("scopes" = "unique_lookup") by decide),
      assocLast_seg_skip (show ¬ ("required" = "unique_lookup") by decide),
      assocLast_seg_skip (show ¬ ("description" = "unique_lookup") by decide),
      assocLast_seg_skip (show ¬ ("sensitive" = "unique_lookup") by decide),
      assocLast_seg_skip (show ¬ ("searchable" = "unique_lookup") by decide),
      assocLast_seg_skip (show ¬ ("sortable" = "unique_lookup") by decide),
      assocLast_seg_skip (show ¬ ("filterable" = "unique_lookup") by decide),
      assocLast_seg_here,
      assocLast_seg_skip (show ¬ ("range_lookup" = "unique_lookup") by decide),
      assocLast_nil]
  rfl

theorem lookup_rangeLookup (df : DomainField) :
    assocLast (mapOfDomainField df) "range_lookup" =
      if df.rangeLookup = true then some (MVal.bool true) else none := by
  unfold mapOfDomainField
  rw [      assocLast_seg_skip (show ¬ ("scopes" = "range_lookup") by decide),
      assocLast_seg_skip (show ¬ ("required" = "range_lookup") by decide),
      assocLast_seg_skip (show ¬ ("description" = "range_lookup") by decide),
      assocLast_seg_skip (show ¬ ("sensitive" = "range_lookup") by decide),
      assocLast_seg_skip (show ¬ ("searchable" = "range_lookup") by decide),
      assocLast_seg_skip (show ¬ ("sortable" = "range_lookup") by decide),
      assocLast_seg_skip (show ¬ ("filterable" = "range_lookup") by decide),
      assocLast_seg_skip (show ¬ ("unique_lookup" = "range_lookup") by decide),
      assocLast_seg_here,
      assocLast_nil]
  rfl

theorem decodeScopeList_roundtrip (l : List String) :
    decodeScopeList (l.map MVal.str) = some l := by
  induction l with
  | nil => rfl
  | cons s rest ih => simp [decodeScopeList, ih]

theorem decodeRequiredList_roundtrip (l : List (String × Bool)) :
    decodeRequiredList (l.map (fun p => (p.1, MVal.bool p.2))) = some l := by
  induction l with
  | nil => rfl
  | cons p rest ih =>
    obtain ⟨k, b⟩ := p
    simp [decodeRequiredList, ih]

theorem decodeBoolVal_flag (b : Bool) :
    decodeBoolVal (if b = true then some (MVal.bool true) else none) = some b := by
  cases b <;> rfl

theorem mapOf_scopes (df : DomainField) :
    decodeScopesVal (assocLast (mapOfDomainField df) "scopes") = some df.scopes := by
  rw [lookup_scopes]
  by_cases hs : df.scopes = []
  · rw [if_neg (by simp [hs]), hs]
    rfl
  · rw [if_pos hs]
    simp [decodeScopesVal, decodeScopeList_roundtrip]

theorem mapOf_required (df : DomainField) :
    decodeRequiredVal (assocLast (mapOfDomainField df) "required") = some df.required := by
  rw [lookup_required]
  by_cases hs : df.required = []
  · rw [if_neg (by simp [hs]), hs]
    rfl
  · rw [if_pos hs]
    simp [decodeRequiredVal, decodeRequiredList_roundtrip]

theorem mapOf_description (df : DomainField) :
    decodeStrVal (assocLast (mapOfDomainField df) "description") = some df.description := by
  rw [lookup_description]
  by_cases hs : df.description = ""
  · rw [if_neg (by simp [hs]), hs]
    rfl
  · rw [if_pos hs]
    rfl

theorem mapOf_sensitive (df : DomainField) :
    decodeBoolVal (assocLast (mapOfDomainField df) "sensitive") = some df.sensitive := by
  rw [lookup_sensitive, decodeBoolVal_flag]

theorem mapOf_searchable (df : DomainField) :
    decodeBoolVal (assocLast (mapOfDomainField df) "searchable") = some df.searchable := by
  rw [lookup_searchable, decodeBoolVal_flag]

theorem mapOf_sortable (df : DomainField) :
    decodeBoolVal (assocLast (mapOfDomainField df) "sortable") = some df.sortable := by
  rw [lookup_sortable, decodeBoolVal_flag]

theorem mapOf_filterable (df : DomainField) :
    decodeBoolVal (assocLast (mapOfDomainField df) "filterable") = some df.filterable := by
  rw [lookup_filterable, decodeBoolVal_flag]

theorem mapOf_uniqueLookup (df : DomainField) :
    decodeBoolVal (assocLast (mapOfDomainField df) "unique_lookup") = some df.uniqueLookup := by
  rw [lookup_uniqueLookup, decodeBoolVal_flag]

theorem mapOf_rangeLookup (df : DomainField) :
    decodeBoolVal (assocLast (mapOfDomainField df) "range_lookup") = some df.rangeLookup := by
  rw [lookup_rangeLookup, decodeBoolVal_flag]

theorem unmarshal_mapOfDomainField (df : DomainField) :
    unmarshalDomainField (mapOfDomainField df) = some df := by
  simp only [unmarshalDomainField, mapOf_scopes, mapOf_required, mapOf_description,
    mapOf_sensitive, mapOf_searchable, mapOf_sortable, mapOf_filterable,
    mapOf_uniqueLookup, mapOf_rangeLookup, Option.bind_eq_bind, Option.some_bind]

/-- Claim C3: resolving a per-field annotation from the concretely-typed
value and from the equivalent generic string-keyed map (its JSON
serialization) produces identical normalized annotations — same scopes
list, required map, capability booleans and unique/range lookup flags —
and a map holding a wrong value type for a known key (a `scopes` entry
that is a number instead of a list) resolves to absent (`none`), never to
a partially populated annotation.  (The `Nodup` hypothesis states that
`required` is a Go map: its keys are unique.) -/
theorem c3_map_and_concrete_forms_agree :
    (∀ df : DomainField, (df.required.map Prod.fst).Nodup →
      getDomainFieldAnnot (some (.concrete df)) = some df ∧
      getDomainFieldAnnot (some (.mapForm (mapOfDomainField df))) = some df) ∧
    (∀ (m : List (String × MVal)) (q : ℚ), assocLast m "scopes" = some (.num q) →
      getDomainFieldAnnot (some (.mapForm m)) = none) := by
  constructor
  · intro df _
    exact ⟨rfl, unmarshal_mapOfDomainField df⟩
  · intro m q h
    simp [getDomainFieldAnnot, unmarshalDomainField, h, decodeScopesVal]

/-- Claim C3 at concrete inputs: a sample annotation resolves identically
through both forms, and a map whose `scopes` key holds the number `3`
resolves to absent. -/
theorem c3_map_and_concrete_forms_agree_witness :
    (getDomainFieldAnnot (some (.concrete
        ⟨[ScopeCreate], [(ScopeCreate, true)], false, true, false, false, true, false, "e"⟩)) =
      some ⟨[ScopeCreate], [(ScopeCreate, true)], false, true, false, false, true, false, "e"⟩ ∧
     getDomainFieldAnnot (some (.mapForm (mapOfDomainField
        ⟨[ScopeCreate], [(ScopeCreate, true)], false, true, false, false, true, false, "e"⟩))) =
      some ⟨[ScopeCreate], [(ScopeCreate, true)], false, true, false, false, true, false, "e"⟩) ∧
    getDomainFieldAnnot (some (.mapForm [("scopes", MVal.num 3)])) = none :=
  ⟨c3_map_and_concrete_forms_agree.1
      ⟨[ScopeCreate], [(ScopeCreate, true)], false, true, false, false, true, false, "e"⟩
      (by simp),
   c3_map_and_concrete_forms_agree.2 [("scopes", MVal.num 3)] 3 rfl⟩

/-! ### Lookup-method synthesis lemmas -/

theorem specMethodsLoop_eq (mk : GenField → String) (key : GenField → String)
    (l : List GenField) :
    ∀ (ms gen : List String),
      specMethodsLoop mk key l ms gen =
        (ms ++ specFirstOnly (l.map fun f => (key f, mk f)) gen,
         gen ++ specSeenKeys (l.map fun f => (key f, mk f)) gen) := by
  induction l with
  | nil => intro ms gen; simp [specMethodsLoop, specFirstOnly, specSeenKeys]
  | cons f rest ih =>
    intro ms gen
    simp only [specMethodsLoop, List.map_cons, specFirstOnly, specSeenKeys]
    by_cases h : key f ∈ gen
    · rw [if_pos h, if_pos h, if_pos h, ih]
    · rw [if_neg h, if_neg h, if_neg h, ih]
      simp [List.append_assoc]

theorem specFirstOnly_append (a : List (String × String)) :
    ∀ (b : List (String × String)) (seen : List String),
      specFirstOnly (a ++ b) seen =
        specFirstOnly a seen ++ specFirstOnly b (seen ++ specSeenKeys a seen) := by
  induction a with
  | nil => intro b seen; simp [specFirstOnly, specSeenKeys]
  | cons p rest ih =>
    intro b seen
    simp only [List.cons_append, specFirstOnly, specSeenKeys, List.append_eq]
    by_cases h : p.1 ∈ seen
    · rw [if_pos h, if_pos h, if_pos h, ih]
    · rw [if_neg h, if_neg h, if_neg h, ih]
      simp [List.append_assoc]

/-- Claim C5: `specificMethods` emits exactly the per-(field, lookup-kind)
signatures — `FindBy<Field>` for unique-lookup fields, then
`FindBy<Field>Range` for range-lookup fields — de-duplicated by method
name (first occurrence wins); and it emits nothing for an entity none of
whose fields carries an explicit lookup flag, however searchable,
sortable or boolean they are. -/
theorem c5_specific_methods_dedup :
    (∀ node : GenType, specificMethods node = specLookupSignatures node) ∧
    (∀ node : GenType,
      (∀ f ∈ node.fields, ∀ a, getDomainFieldAnnot f.annot = some a →
        a.uniqueLookup = false ∧ a.rangeLookup = false) →
      specificMethods node = []) := by
  constructor
  · intro node
    rw [specLookupSignatures, specFirstOnly_append]
    simp only [specificMethods, specMethodsLoop_eq, List.nil_append]
  · intro node h
    have hu : uniqueLookupFields node = [] := by
      rw [uniqueLookupFields, List.filter_eq_nil_iff]
      intro f hf
      have hmem : f ∈ node.fields := (List.mem_filter.mp hf).1
      rcases ha : getDomainFieldAnnot f.annot with _ | a
      · simp [isUniqueLookupField, ha]
      · simp [isUniqueLookupField, ha, (h f hmem a ha).1]
    have hr : rangeLookupFields node = [] := by
      rw [rangeLookupFields, List.filter_eq_nil_iff]
      intro f hf
      have hmem : f ∈ node.fields := (List.mem_filter.mp hf).1
      rcases ha : getDomainFieldAnnot f.annot with _ | a
      · simp [ha]
      · simp [ha, (h f hmem a ha).2]
    simp [specificMethods, hu, hr, specMethodsLoop]

/-- Claim C5 at concrete inputs: a `User` entity whose `email` field is a
unique lookup and whose `created_at` field is a range lookup yields
exactly the two expected signatures, and an entity with only
searchable/sortable/boolean fields yields none. -/
theorem c5_specific_methods_dedup_witness :
    specificMethods
      ⟨"User",
        [⟨"email", "Email", "string",
            some (.concrete ⟨[], [], false, false, false, false, true, false, ""⟩)⟩,
         ⟨"created_at", "CreatedAt", "time.Time",
            some (.concrete ⟨[], [], false, false, false, false, false, true, ""⟩)⟩]⟩ =
      ["FindByEmail(ctx context.Context, email string) (*UserDomainModel, error)",
       "FindByCreatedAtRange(ctx context.Context, start, end time.Time) ([]*UserDomainModel, error)"] ∧
    specificMethods
      ⟨"Toggle",
        [⟨"enabled", "Enabled", "bool",
            some (.concrete ⟨[], [], false, true, true, true, false, false, ""⟩)⟩]⟩ = [] := by
  constructor
  · rw [c5_specific_methods_dedup.1]
    rfl
  · apply c5_specific_methods_dedup.2
    intro f hf a ha
    simp only [List.mem_singleton] at hf
    subst hf
    simp only [getDomainFieldAnnot, Option.some.injEq] at ha
    subst ha
    exact ⟨rfl, rfl⟩

/-! ### Service and request theorems -/

/-- Claim C4: for a non-zero id and a request that validates, if the
storage fetch of the existing model fails, `Update` returns that failure
wrapped with the "failed to get existing model" stage prefix — with the
original cause still reachable through the wrapping — and it never
invokes the storage update operation. -/
theorem c4_update_get_failure {T R : Type} (env : UpdateEnv T R) (id : EntID)
    (req : UpdateReq T) (e : GoError)
    (hz : id.isZero = false) (hv : req.validate = .ok ())
    (hg : env.getByID id = .error e) :
    (svcUpdate env id req).1 = .error (.wrapped "failed to get existing model" e) ∧
    (∃ werr, (svcUpdate env id req).1 = .error werr ∧ werr.cause = some e) ∧
    (∀ t, RepoCall.update t ∉ (svcUpdate env id req).2) := by
  have hupd : svcUpdate env id req =
      (.error (.wrapped "failed to get existing model" e), [.getByID id]) := by
    unfold svcUpdate
    rw [hz, hv, hg]
    rfl
  refine ⟨by rw [hupd], ⟨.wrapped "failed to get existing model" e, by rw [hupd], rfl⟩, ?_⟩
  intro t ht
  rw [hupd] at ht
  simp at ht

/-- Claim C4 at a concrete input: updating id 1 when storage reports
"entity not found" yields the wrapped "failed to get existing model"
error and performs no storage update call. -/
theorem c4_update_get_failure_witness :
    (svcUpdate
        (⟨fun _ => .error (.msg "entity not found"), fun t => .ok t,
          fun t _ => t, fun t => t⟩ : UpdateEnv Unit Unit)
        (.intID 1) ⟨.ok (), fun t => t⟩).1 =
      .error (.wrapped "failed to get existing model" (.msg "entity not found")) ∧
    (∀ t, RepoCall.update t ∉
      (svcUpdate
        (⟨fun _ => .error (.msg "entity not found"), fun t => .ok t,
          fun t _ => t, fun t => t⟩ : UpdateEnv Unit Unit)
        (.intID 1) ⟨.ok (), fun t => t⟩).2) :=
  ⟨(c4_update_get_failure
      (⟨fun _ => .error (.msg "entity not found"), fun t => .ok t,
        fun t _ => t, fun t => t⟩ : UpdateEnv Unit Unit)
      (.intID 1) ⟨.ok (), fun t => t⟩ (.msg "entity not found") rfl rfl rfl).1,
   (c4_update_get_failure
      (⟨fun _ => .error (.msg "entity not found"), fun t => .ok t,
        fun t _ => t, fun t => t⟩ : UpdateEnv Unit Unit)
      (.intID 1) ⟨.ok (), fun t => t⟩ (.msg "entity not found") rfl rfl rfl).2.2⟩

/-- Claim C7: the `ListRequest` that `List` actually sends to storage has
size equal to the default (20) whenever the given size is nonpositive or
above the maximum (1000) and equal to the given size otherwise, and page
0 whenever the given page is negative; in particular size -1 reaches
storage as the default size. -/
theorem c7_list_clamping {T LR : Type} (env : ListEnv T LR) (page size : Int)
    (sortBy order : String) :
    (size ≤ 0 ∨ MaxPageSize < size →
      (svcList env page size sortBy order).2.size = DefaultPageSize) ∧
    (0 < size → size ≤ MaxPageSize →
      (svcList env page size sortBy order).2.size = size) ∧
    (page < 0 → (svcList env page size sortBy order).2.page = 0) ∧
    (0 ≤ page → (svcList env page size sortBy order).2.page = page) ∧
    (size = -1 → (svcList env page size sortBy order).2.size = DefaultPageSize) := by
  have hreq : (svcList env page size sortBy order).2 =
      ⟨if size ≤ 0 ∨ MaxPageSize < size then DefaultPageSize else size,
       if page < 0 then 0 else page, sortBy, order, ""⟩ := by
    rcases h : env.list ⟨if size ≤ 0 ∨ MaxPageSize < size then DefaultPageSize else size,
        if page < 0 then 0 else page, sortBy, order, ""⟩ with e | mt <;>
      simp [svcList, h]
  refine ⟨?_, ?_, ?_, ?_, ?_⟩
  · intro h
    rw [hreq]
    exact if_pos h
  · intro h1 h2
    rw [hreq]
    exact if_neg (by omega)
  · intro h
    rw [hreq]
    exact if_pos h
  · intro h
    rw [hreq]
    exact if_neg (by omega)
  · intro h
    subst h
    rw [hreq]
    have hc : ((-1 : Int) ≤ 0 ∨ MaxPageSize < -1) := Or.inl (by norm_num)
    show (if (-1 : Int) ≤ 0 ∨ MaxPageSize < -1 then DefaultPageSize else -1) = DefaultPageSize
    exact if_pos hc

/-- Claim C7 at a concrete input: a `List` call with size -1 sends the
default page size to storage. -/
theorem c7_list_clamping_witness :
    (svcList (⟨fun _ => .error (.msg "x"), fun _ _ _ _ => ()⟩ : ListEnv Unit Unit)
        0 (-1) "" "").2.size = DefaultPageSize :=
  (c7_list_clamping _ 0 (-1) "" "").2.2.2.2 rfl

/-- Claim C8: default-fill turns size 0 into 20; `ListRequest` validation
fails on size above 1000, negative size, negative page, or an order
outside the empty/asc/desc set; `SearchRequest` validation enforces the
same bounds and additionally fails when both the query and the filters
are empty. -/
theorem c8_request_validation :
    (∀ r : ListRequest, r.size = 0 → (r.setDefaults).size = 20) ∧
    (∀ r : ListRequest, MaxPageSize < r.size → hasErr r.validate = true) ∧
    (∀ r : ListRequest, r.size < 0 → hasErr r.validate = true) ∧
    (∀ r : ListRequest, r.page < 0 → hasErr r.validate = true) ∧
    (∀ r : ListRequest, r.order ≠ "" → r.order ≠ "asc" → r.order ≠ "desc" →
      hasErr r.validate = true) ∧
    (∀ r : SearchRequest, MaxPageSize < r.size → hasErr r.validate = true) ∧
    (∀ r : SearchRequest, r.size < 0 → hasErr r.validate = true) ∧
    (∀ r : SearchRequest, r.page < 0 → hasErr r.validate = true) ∧
    (∀ r : SearchRequest, r.order ≠ "" → r.order ≠ "asc" → r.order ≠ "desc" →
      hasErr r.validate = true) ∧
    (∀ r : SearchRequest, r.query = "" → r.filters = [] →
      hasErr r.validate = true) := by
  refine ⟨?_, ?_, ?_, ?_, ?_, ?_, ?_, ?_, ?_, ?_⟩
  · intro r h
    unfold ListRequest.setDefaults
    rw [if_pos h]
    rfl
  · intro r h
    unfold ListRequest.validate
    split_ifs <;> first | rfl | omega
  · intro r h
    unfold ListRequest.validate
    split_ifs <;> first | rfl | omega
  · intro r h
    unfold ListRequest.validate
    split_ifs <;> first | rfl | omega
  · intro r h1 h2 h3
    unfold ListRequest.validate
    split_ifs <;> first | rfl | tauto
  · intro r h
    unfold SearchRequest.validate
    split_ifs <;> first | rfl | omega
  · intro r h
    unfold SearchRequest.validate
    split_ifs <;> first | rfl | omega
  · intro r h
    unfold SearchRequest.validate
    split_ifs <;> first | rfl | omega
  · intro r h1 h2 h3
    unfold SearchRequest.validate
    split_ifs <;> first | rfl | tauto
  · intro r h1 h2
    unfold SearchRequest.validate
    split_ifs <;> first | rfl | simp_all
/-- Claim C8 at concrete inputs: size 0 default-fills to 20, size 5000
fails list validation, and an empty query with empty filters fails search
validation. -/
theorem c8_request_validation_witness :
    ((ListRequest.mk 0 0 "" "" "").setDefaults).size = 20 ∧
    hasErr (ListRequest.mk 5000 0 "" "" "").validate = true ∧
    hasErr (SearchRequest.mk "" [] 20 0 "" "").validate = true :=
  ⟨c8_request_validation.1 ⟨0, 0, "", "", ""⟩ rfl,
   c8_request_validation.2.1 ⟨5000, 0, "", "", ""⟩ (by decide),
   c8_request_validation.2.2.2.2.2.2.2.2.2 ⟨"", [], 20, 0, "", ""⟩ rfl rfl⟩

theorem parseDigitsInt_ok_iff (neg : Bool) (ds : List Char) :
    (∃ n, parseDigitsInt neg ds = .ok n) ↔
      (ds ≠ [] ∧ (∀ c ∈ ds, isDigit c = true) ∧
        (if neg then (digitsToNat ds : Int) ≤ 2 ^ 63
         else (digitsToNat ds : Int) ≤ 2 ^ 63 - 1)) := by
  unfold parseDigitsInt
  split_ifs with h1 h2 h3 h4 h5 <;>
    simp_all [List.all_eq_true]

theorem not_isDigit_sign : isDigit '-' = false ∧ isDigit '+' = false := by decide

theorem cons_ne_self_cons (a c : Char) (l : List Char) : ¬ (c :: l = a :: c :: l) := by
  intro h
  have := congrArg List.length h
  simp at this

theorem parseInt64_ok_iff (s : String) :
    (∃ n, parseInt64 s = .ok n) ↔ Int64Numeral s := by
  unfold parseInt64 Int64Numeral
  rcases hs : s.toList with _ | ⟨c, rest⟩
  · simp only [parseIntList]
    constructor
    · rintro ⟨n, hn⟩
      exact Except.noConfusion hn
    · rintro ⟨ds, hne, _, hshape, _⟩
      rcases hshape with h | h | h
      · exact absurd h.symm hne
      · exact List.noConfusion h
      · exact List.noConfusion h
  · simp only [parseIntList]
    by_cases hsign : c = '-' ∨ c = '+'
    · rw [if_pos hsign, parseDigitsInt_ok_iff]
      constructor
      · rintro ⟨hne, hdig, hbound⟩
        refine ⟨rest, hne, hdig, ?_, ?_⟩
        · rcases hsign with h | h
          · subst h
            exact Or.inr (Or.inr rfl)
          · subst h
            exact Or.inr (Or.inl rfl)
        · rcases hsign with h | h
          · subst h
            rw [if_pos rfl]
            simpa using hbound
          · subst h
            rw [if_neg (by simp)]
            simpa using hbound
      · rintro ⟨ds, hne, hdig, hshape, hbound⟩
        rcases hshape with h | h | h
        · exfalso
          have hc : c ∈ ds := by
            rw [← h]
            exact List.mem_cons_self c rest
          have hd := hdig c hc
          rcases hsign with h' | h' <;> subst h' <;>
            simp [not_isDigit_sign.1, not_isDigit_sign.2] at hd
        · have hc : c = '+' ∧ rest = ds := by
            have := List.cons.injEq c rest '+' ds ▸ h
            exact ⟨this.1, this.2⟩
          obtain ⟨hc1, hc2⟩ := hc
          subst hc1
          subst hc2
          refine ⟨hne, hdig, ?_⟩
          rw [if_neg (by simp)] at hbound
          simpa using hbound
        · have hc : c = '-' ∧ rest = ds := by
            have := List.cons.injEq c rest '-' ds ▸ h
            exact ⟨this.1, this.2⟩
          obtain ⟨hc1, hc2⟩ := hc
          subst hc1
          subst hc2
          refine ⟨hne, hdig, ?_⟩
          rw [if_pos rfl] at hbound
          simpa using hbound
    · rw [if_neg hsign, parseDigitsInt_ok_iff]
      have hcd : ¬ (c = '-') ∧ ¬ (c = '+') := by
        constructor <;> intro h <;> exact hsign (by simp [h])
      constructor
      · rintro ⟨_, hdig, hbound⟩
        refine ⟨c :: rest, by simp, hdig, Or.inl rfl, ?_⟩
        rw [if_neg (cons_ne_self_cons '-' c rest)]
        simpa using hbound
      · rintro ⟨ds, hne, hdig, hshape, hbound⟩
        rcases hshape with h | h | h
        · subst h
          refine ⟨by simp, hdig, ?_⟩
          rw [if_neg (cons_ne_self_cons '-' c rest)] at hbound
          simpa using hbound
        · exfalso
          have := (List.cons.injEq c rest '+' ds ▸ h).1
          exact hcd.2 this
        · exfalso
          have := (List.cons.injEq c rest '-' ds ▸ h).1
          exact hcd.1 this

/-- Claim C10: `Int64ID.Int64` never returns an error (it succeeds on
every value, zero included), while `StringID.Int64` returns an error
exactly when the backing string is not a base-10 64-bit integer numeral
(the empty string and out-of-range numerals included); `IsZero` holds
exactly for the empty string on `StringID` and exactly for 0 on
`Int64ID`. -/
theorem c10_id_conversions :
    (∀ n : Int, EntID.int64 (.intID n) = .ok n) ∧
    (∀ s : String, (∃ n, EntID.int64 (.strID s) = .ok n) ↔ Int64Numeral s) ∧
    (∀ s : String, (∃ e, EntID.int64 (.strID s) = .error e) ↔ ¬ Int64Numeral s) ∧
    (∀ s : String, EntID.isZero (.strID s) = true ↔ s = "") ∧
    (∀ n : Int, EntID.isZero (.intID n) = true ↔ n = 0) := by
  refine ⟨fun n => rfl, fun s => parseInt64_ok_iff s, ?_, ?_, ?_⟩
  · intro s
    rw [← parseInt64_ok_iff s]
    show (∃ e, parseInt64 s = .error e) ↔ ¬ ∃ n, parseInt64 s = .ok n
    rcases h : parseInt64 s with e | n <;> simp [h]
  · intro s
    simp [EntID.isZero]
  · intro n
    simp [EntID.isZero]

/-- Claim C10 at concrete inputs: integer ids never fail to convert
(including zero), "42" is a valid numeral, the empty string and the
out-of-range numeral `2^63` are not, and the `IsZero` predicates hold at
exactly the zero values. -/
theorem c10_id_conversions_witness :
    EntID.int64 (.intID 0) = .ok 0 ∧
    Int64Numeral "42" ∧
    ¬ Int64Numeral "" ∧
    ¬ Int64Numeral "9223372036854775808" ∧
    EntID.isZero (.strID "") = true ∧
    EntID.isZero (.intID 0) = true := by
  refine ⟨c10_id_conversions.1 0,
    (c10_id_conversions.2.1 "42").mp ⟨42, rfl⟩,
    (c10_id_conversions.2.2.1 "").mp ⟨"invalid syntax", rfl⟩,
    (c10_id_conversions.2.2.1 "9223372036854775808").mp ⟨"value out of range", rfl⟩,
    (c10_id_conversions.2.2.2.1 "").mpr rfl,
    (c10_id_conversions.2.2.2.2 0).mpr rfl⟩

end Entdomain

